import Mathlib

/-!
Verification model of the EOL-status checker (`src/eol.py`).

The repository reads a software inventory, looks each product up in the
endoflife.date API, matches the requested version against the product's
release-cycle records, and classifies the match into a support-status row.

This file gives a shallow embedding of the matching and classification
logic and of the row-merging / CSV-saving pipeline, and proves or refutes
the frozen claims about it.

Modelling conventions:
* Machine-level dates: `datetime.strptime(s, "%Y-%m-%d")` produces the
  midnight of a proleptic-Gregorian calendar date; `datetime.now()` is an
  arbitrary instant.  Both are modelled as microseconds (`Int`) since the
  midnight opening day 1 of year 1 (`toOrdinal 1 1 1 = 1`, so instants are
  `ordinal * usPerDay + microsecondOfDay`).  Only comparisons and
  differences of such instants occur, so the choice of origin is
  irrelevant.
* Python scalars that the code inspects with `is True` / `is False` /
  `isinstance(str)` are modelled by `PyVal`; `PyVal.pnone` stands for any
  value that is none of those (absent key, `None`, numbers, ...), which
  the code treats uniformly by falling through every branch.
* The network is modelled as a pure function `net : String → Option ApiData`
  (`none` = 404 / non-200 / request exception, in which case nothing is
  cached); `ApiData.jother` stands for a JSON payload that is not a list.
  Within one process run the cache makes repeated lookups of one product
  agree, which the cache-threading model reproduces exactly.
* Strings are Unicode in both languages; `str.lower()`, `str.strip()`,
  `str.startswith` and `str.split`-style operations are modelled by
  structurally recursive functions over the character list (`pyLower`,
  `pyStrip`, `pyStartsWith`, `splitDash`), which agree with Python on
  ASCII data; exotic Unicode case/space classes are outside the model, as
  are non-ASCII digits in `%Y-%m-%d` parsing.
-/

/-- Microseconds per day, the resolution of Python `datetime`. -/
def usPerDay : Int := 86400000000

/-- Numeric value of an ASCII digit character. -/
def digitVal (c : Char) : Nat := c.toNat - 48

/-- Numeric value of a list of decimal digits (only used under an
`all Char.isDigit` guard). -/
def natOfDigitList (cs : List Char) : Nat :=
  cs.foldl (fun n c => n * 10 + digitVal c) 0

/-- Splitting a character list at every `-`, Python
`s.split("-")`-style: `splitDash [] = [[]]`, and each separator opens a
new chunk, so chunks never contain `-` and concatenating the chunks with
`-` restores the input. -/
def splitDash : List Char → List (List Char)
  | [] => [[]]
  | c :: rest =>
    if c = '-' then [] :: splitDash rest
    else
      match splitDash rest with
      | [] => [[c]]
      | h :: t => (c :: h) :: t

/-- Python `str.lower()` (ASCII case mapping). -/
def pyLower (s : String) : String := String.mk (s.data.map Char.toLower)

/-- Characters removed by Python `str.strip()` (ASCII subset). -/
def dropLeadingWs : List Char → List Char
  | [] => []
  | c :: t => if c.isWhitespace then dropLeadingWs t else c :: t

/-- Python `str.strip()`: drop whitespace from both ends. -/
def pyStrip (s : String) : String :=
  String.mk (dropLeadingWs ((dropLeadingWs s.data.reverse).reverse))

/-- Python `s.startswith(p)`. -/
def pyStartsWith (s p : String) : Bool := p.data.isPrefixOf s.data

/-- Gregorian leap-year rule used by Python `datetime`. -/
def isLeapYear (y : Nat) : Bool :=
  (y % 4 == 0 && y % 100 != 0) || y % 400 == 0

/-- Length of month `m` (1-based) of year `y`. -/
def daysInMonth (y m : Nat) : Nat :=
  if m = 2 then (if isLeapYear y then 29 else 28)
  else if m = 4 ∨ m = 6 ∨ m = 9 ∨ m = 11 then 30
  else 31

/-- The `%m` field of `strptime`: its regex (`1[0-2]|0[1-9]|[1-9]`)
accepts exactly the 1- and 2-digit numbers of value 1..12 (never
`"0"`/`"00"`). -/
def monthNumField : List Char → Option Nat
  | [c] => if c.isDigit ∧ 1 ≤ digitVal c then some (digitVal c) else none
  | [c₁, c₂] =>
    if c₁.isDigit ∧ c₂.isDigit then
      let n := 10 * digitVal c₁ + digitVal c₂
      if 1 ≤ n ∧ n ≤ 12 then some n else none
    else none
  | _ => none

/-- The `%d` field of `strptime`: its regex
(`3[0-1]|[1-2]\d|0[1-9]|[1-9]| [1-9]`) accepts exactly the 1- and 2-digit
numbers of value 1..31 plus a space followed by one digit 1..9. -/
def dayNumField : List Char → Option Nat
  | [c] => if c.isDigit ∧ 1 ≤ digitVal c then some (digitVal c) else none
  | [c₁, c₂] =>
    if c₁ = ' ' then
      if c₂.isDigit ∧ 1 ≤ digitVal c₂ then some (digitVal c₂) else none
    else if c₁.isDigit ∧ c₂.isDigit then
      let n := 10 * digitVal c₁ + digitVal c₂
      if 1 ≤ n ∧ n ≤ 31 then some n else none
    else none
  | _ => none

/-- `datetime.strptime(s, "%Y-%m-%d")`, as a calendar triple.

CPython matches `%Y` with exactly four digits, `%m` with a 1–2-digit
number in 1..12, `%d` with a 1–2-digit number in 1..31, requires the whole
string to be consumed, and then the `datetime` constructor rejects
year 0 ("0000") and a day beyond the month's length.  Since the three
fields contain no `-`, splitting on `-` is an exact decomposition. -/
def parseDate (s : String) : Option (Nat × Nat × Nat) :=
  match splitDash s.data with
  | [ys, ms, ds] =>
    if ys.length = 4 ∧ ys.all Char.isDigit then
      match monthNumField ms, dayNumField ds with
      | some m, some d =>
        let y := natOfDigitList ys
        if 1 ≤ y ∧ d ≤ daysInMonth y m then some (y, m, d) else none
      | _, _ => none
    else none
  | _ => none

/-- Days of year `y` that precede month `m`. -/
def daysBeforeMonth (y m : Nat) : Nat :=
  (List.range (m - 1)).foldl (fun acc i => acc + daysInMonth y (i + 1)) 0

/-- Proleptic-Gregorian day ordinal of a date (0001-01-01 ↦ 1), i.e.
Python's `date.toordinal()`. -/
def toOrdinal (y m d : Nat) : Nat :=
  365 * (y - 1) + (y - 1) / 4 - (y - 1) / 100 + (y - 1) / 400
    + daysBeforeMonth y m + d

/-- A Python scalar as discriminated by the checker: the code only ever
asks `is True`, `is False` and `isinstance(_, str)`, so every other value
(absent key, `None`, numbers, nested objects) behaves like `pnone`. -/
inductive PyVal where
  | pbool (b : Bool)
  | pstr (s : String)
  | pnone
  deriving DecidableEq

/-- One release-cycle record of the API.  `cycle` is the stringified
`cycle` field (`str(record.get("cycle", ""))` is applied at use sites, so
`none` renders as `""`); `lts`/`latest` keep their `dict.get` defaults at
use sites. -/
structure CycleRecord where
  cycle : Option String
  eol : PyVal
  support : PyVal
  lts : Option Bool
  latest : Option String
  deriving DecidableEq

/-- `str(record.get("cycle", ""))`. -/
def cycleStr (r : CycleRecord) : String := r.cycle.getD ""

/-- A product's API payload on HTTP 200: a list of cycle records, or some
non-list JSON document (`jother`). -/
inductive ApiData where
  | jlist (cycles : List CycleRecord)
  | jother
  deriving DecidableEq

/-- The `is_eol` output field: a boolean, or the literal string
`"Unknown"` used by the no-match sentinel. -/
inductive EolFlag where
  | flag (b : Bool)
  | unknownFlag
  deriving DecidableEq

/-- The normalized status object built by `EOLChecker.get_eol_status`. -/
structure StatusResult where
  eol_date : String
  is_eol : EolFlag
  support_status : String
  days_until_eol : Option Int
  lts : Bool
  latest_version : String
  deriving DecidableEq

/-- The sentinel returned when no record matches (src/eol.py lines 74–82). -/
def unknownStatus : StatusResult :=
  { eol_date := "Unknown", is_eol := .unknownFlag, support_status := "Unknown",
    days_until_eol := none, lts := false, latest_version := "Unknown" }

/-- The two-sided dot-extension rule of the second matching loop
(src/eol.py lines 61–67). -/
def dotRuleHolds (version : String) (c : CycleRecord) : Bool :=
  pyStartsWith version (cycleStr c ++ ".") || pyStartsWith (cycleStr c) (version ++ ".")

/-- `EOLChecker.find_best_match` (src/eol.py lines 51–69) with the fetched
payload passed in place of the product name (the fetch itself is modelled
by `get_product_info`).  `none`, a non-list payload and the empty list all
fail the `not all_cycles or not isinstance(all_cycles, list)` guard. -/
def find_best_match (all_cycles : Option ApiData) (version : String) :
    Option CycleRecord :=
  match all_cycles with
  | none => none
  | some .jother => none
  | some (.jlist cs) =>
    if cs.isEmpty then none
    else
      match cs.find? (fun c => cycleStr c == version) with
      | some c => some c
      | none => cs.find? (fun c => dotRuleHolds version c)

/-- The `eol`-field chain of `get_eol_status` (src/eol.py lines 87–114):
given the record's `eol` value and the current instant, the resulting
`(is_eol, eol_date, days_until_eol)` triple.  Defaults before the chain
are `(False, "Unknown", None)`; an unparseable string keeps the defaults
but displays the raw string (the `except ValueError` branch). -/
def eol_fields (eol_value : PyVal) (nowUs : Int) : Bool × String × Option Int :=
  match eol_value with
  | .pbool true => (true, "EOL", some 0)
  | .pbool false => (false, "No EOL date set", none)
  | .pstr s =>
    match parseDate s with
    | some (y, m, d) =>
      let eolUs : Int := (toOrdinal y m d : Int) * usPerDay
      if eolUs < nowUs then (true, s, some 0)
      else (false, s, some ((eolUs - nowUs).fdiv usPerDay))
    | none => (false, s, none)
  | .pnone => (false, "Unknown", none)

/-- `EOLChecker.get_eol_status` (src/eol.py lines 71–145) with the matched
record passed in place of product/version (`info = find_best_match(...)`)
and the current instant in place of `datetime.now()`.

`eol_date_obj < today` compares the parsed date's midnight with the
current instant, and `(eol_date_obj - today).days` is the floored number
of whole days in the difference, which `Int.fdiv` by `usPerDay` computes.

Python's `if not info` is also taken when `info` is an *empty* dict; a
matched record is a cycle object and in the data model is never the empty
dict, so the guard is modelled as the `none` test. -/
def get_eol_status (info : Option CycleRecord) (nowUs : Int) : StatusResult :=
  match info with
  | none => unknownStatus
  | some r =>
    let f := eol_fields r.eol nowUs
    let is_eol := f.1
    let eol_date := f.2.1
    let days_until_eol := f.2.2
    if r.support = PyVal.pbool false then
      { eol_date := eol_date, is_eol := .flag true,
        support_status := "End of Support", days_until_eol := some 0,
        lts := r.lts.getD false, latest_version := r.latest.getD "Unknown" }
    else
      let support_status :=
        if is_eol then "End of Life"
        else
          match days_until_eol with
          | some dd =>
            if dd < 90 then "EOL Soon (<90 days)"
            else if dd < 180 then "EOL Approaching (<6 months)"
            else "Actively Supported"
          | none => "Actively Supported"
      { eol_date := eol_date, is_eol := .flag is_eol,
        support_status := support_status, days_until_eol := days_until_eol,
        lts := r.lts.getD false, latest_version := r.latest.getD "Unknown" }

/-- The label table exactly as §4.2 rule 6 of the spec words it (used to
compare the code's label computation against the spec). -/
def support_status_spec (is_eol : Bool) (days_until_eol : Option Int) : String :=
  if is_eol then "End of Life"
  else
    match days_until_eol with
    | some dd =>
      if dd < 90 then "EOL Soon (<90 days)"
      else if 90 ≤ dd ∧ dd < 180 then "EOL Approaching (<6 months)"
      else "Actively Supported"
    | none => "Actively Supported"

/-- A CSV cell after row merging: input cells are strings; the derived
status fields contribute booleans, integers and Python `None`. -/
inductive Cell where
  | cstr (s : String)
  | cbool (b : Bool)
  | cint (n : Int)
  | cnone
  deriving DecidableEq

/-- An input inventory row as `csv.DictReader` yields it: an ordered
key/value map with string values. -/
abbrev Item := List (String × String)

/-- A merged output row: an ordered key/value map of cells. -/
abbrev Row := List (String × Cell)

/-- The per-process cache of `EOLChecker`, keyed by product (only whole
product payloads are cached on the matching path). -/
abbrev Cache := List (String × ApiData)

/-- The `is_eol` value placed into the merged row dict. -/
def isEolCell : EolFlag → Cell
  | .flag b => .cbool b
  | .unknownFlag => .cstr "Unknown"

/-- The `days_until_eol` value placed into the merged row dict. -/
def daysCell : Option Int → Cell
  | some n => .cint n
  | none => .cnone

/-- The status dict returned by `get_eol_status`, with its Python key
insertion order (identical in all three return statements). -/
def statusDict (st : StatusResult) : Row :=
  [("eol_date", .cstr st.eol_date),
   ("is_eol", isEolCell st.is_eol),
   ("support_status", .cstr st.support_status),
   ("days_until_eol", daysCell st.days_until_eol),
   ("lts", .cbool st.lts),
   ("latest_version", .cstr st.latest_version)]

/-- Python `{**a, **b}`: the keys of `a` in order, each taking `b`'s value
when `b` also binds it, followed by the keys only `b` binds, in `b`'s
order (keys within each dict are unique). -/
def pyMerge (a b : Row) : Row :=
  a.map (fun kv => (kv.1, (b.lookup kv.1).getD kv.2))
    ++ b.filter (fun kv => (a.lookup kv.1).isNone)

/-- An input row's cells. -/
def itemCells (it : Item) : Row :=
  it.map (fun kv => (kv.1, Cell.cstr kv.2))

/-- Python `item.get(k, "")`. -/
def pyGetStr (it : Item) (k : String) : String := (it.lookup k).getD ""

/-- `EOLChecker.get_product_info` on the matching path (no version, so the
cache key is the product), src/eol.py lines 22–49: a cache hit returns the
cached payload; otherwise the network result is returned and cached only
on success (404s, other statuses and request exceptions yield `None` and
cache nothing). -/
def get_product_info (net : String → Option ApiData) (cache : Cache)
    (product : String) : Option ApiData × Cache :=
  match cache.lookup product with
  | some d => (some d, cache)
  | none =>
    match net product with
    | some d => (some d, (product, d) :: cache)
    | none => (none, cache)

/-- The status a row receives as a function of the network alone (what
`get_eol_status(product, version)` computes once the cache is transparent):
lookup on the lowercased/stripped product and the stripped version. -/
def pureStatus (net : String → Option ApiData) (nowUs : Int) (it : Item) :
    StatusResult :=
  get_eol_status
    (find_best_match (net (pyStrip (pyLower (pyGetStr it "product"))))
      (pyStrip (pyGetStr it "version")))
    nowUs

/-- `SoftwareInventory.check_all_eol_status` (src/eol.py lines 187–203):
for each row, normalize product (`lower().strip()`) and version
(`strip()`), fetch (through the cache), match, classify, and merge
`{**item, **eol_status}`; the cache persists across rows. -/
def check_all_eol_status (net : String → Option ApiData) (nowUs : Int) :
    List Item → Cache → List Row
  | [], _ => []
  | it :: rest, cache =>
    let product := pyStrip (pyLower (pyGetStr it "product"))
    let version := pyStrip (pyGetStr it "version")
    let fetched := get_product_info net cache product
    let st := get_eol_status (find_best_match fetched.1 version) nowUs
    pyMerge (itemCells it) (statusDict st)
      :: check_all_eol_status net nowUs rest fetched.2

/-- The fixed output column list of `SoftwareInventory.save_results`
(src/eol.py lines 210–221). -/
def fieldnames : List String :=
  ["product", "version", "system", "criticality", "support_status",
   "eol_date", "is_eol", "days_until_eol", "lts", "latest_version"]

/-- Outcome of `save_results`: nothing written (empty results), a
`ValueError` from `csv.DictWriter` (a row holds a key outside
`fieldnames`; rows before the offending one are already on disk when it
is raised), or the written header and cell grid. -/
inductive SaveOutcome where
  | nothingSaved
  | valueError
  | saved (header : List String) (rows : List (List Cell))
  deriving DecidableEq

/-- `SoftwareInventory.save_results` (src/eol.py lines 205–228):
`csv.DictWriter` with the fixed `fieldnames` and default
`extrasaction="raise"` raises `ValueError` on any extra key; otherwise
every row is projected onto `fieldnames` (missing keys become the
`restval` default `None`). -/
def save_results (results : List Row) : SaveOutcome :=
  if results.isEmpty then .nothingSaved
  else if results.any (fun row => row.any (fun kv => !fieldnames.contains kv.1)) then
    .valueError
  else
    .saved fieldnames
      (results.map (fun row => fieldnames.map (fun f => (row.lookup f).getD .cnone)))

/-- An inventory row with exactly the four documented columns. -/
def mkCleanItem (t : String × String × String × String) : Item :=
  [("product", t.1), ("version", t.2.1), ("system", t.2.2.1),
   ("criticality", t.2.2.2)]

/-- The six derived fields of an output row, as looked up in the row. -/
def derivedOf (row : Row) :
    Option Cell × Option Cell × Option Cell × Option Cell × Option Cell × Option Cell :=
  (row.lookup "support_status", row.lookup "eol_date", row.lookup "is_eol",
   row.lookup "days_until_eol", row.lookup "lts", row.lookup "latest_version")

/-- Every cached payload is what the network returns for its key (holds
for the empty cache and is preserved by fetching, since only successful
responses are cached). -/
def cacheConsistent (net : String → Option ApiData) (cache : Cache) : Prop :=
  ∀ p d, cache.lookup p = some d → net p = some d

lemma lookup_mapValues (a b : Row) (k : String) :
    (a.map (fun kv => (kv.1, (b.lookup kv.1).getD kv.2))).lookup k
      = (a.lookup k).map (fun v => (b.lookup k).getD v) := by
  induction a with
  | nil => rfl
  | cons kv t ih =>
    obtain ⟨k₀, v₀⟩ := kv
    simp only [List.map_cons, List.lookup_cons]
    cases hbeq : k == k₀ with
    | true => simp only [hbeq]; rw [eq_of_beq hbeq]; rfl
    | false => simpa only [hbeq] using ih

lemma lookup_filterKeep (b : Row) (p : String × Cell → Bool) (k : String)
    (h : ∀ kv, kv.1 = k → p kv = true) :
    (b.filter p).lookup k = b.lookup k := by
  induction b with
  | nil => rfl
  | cons kv t ih =>
    obtain ⟨k₀, v₀⟩ := kv
    cases hbeq : k == k₀ with
    | true =>
      have hk : k₀ = k := (eq_of_beq hbeq).symm
      rw [List.filter_cons, h (k₀, v₀) hk]
      simp [List.lookup_cons, hbeq]
    | false =>
      rw [List.filter_cons]
      cases hp : p (k₀, v₀) <;> simp [List.lookup_cons, hbeq, ih]

/-- Lookup in a Python dict merge: a key bound by `a` keeps `a`'s
position but takes `b`'s value when `b` also binds it; a key only `b`
binds is found in the appended part. -/
lemma lookup_pyMerge (a b : Row) (k : String) :
    (pyMerge a b).lookup k
      = match a.lookup k with
        | some v => some ((b.lookup k).getD v)
        | none => b.lookup k := by
  rw [pyMerge, List.lookup_append, lookup_mapValues]
  cases h : a.lookup k with
  | some v => simp
  | none =>
    have hfilter :
        (b.filter (fun kv => ((a.lookup kv.1).isNone : Bool))).lookup k
          = b.lookup k := by
      refine lookup_filterKeep b _ k ?_
      intro kv hk
      simp [hk, h]
    simp [hfilter]

lemma lookup_pyMerge_hit (a b : Row) (k : String) (c : Cell)
    (h : b.lookup k = some c) : (pyMerge a b).lookup k = some c := by
  rw [lookup_pyMerge]
  cases ha : a.lookup k <;> simp [h]

lemma lookup_pyMerge_miss (a b : Row) (k : String)
    (h : b.lookup k = none) : (pyMerge a b).lookup k = a.lookup k := by
  rw [lookup_pyMerge]
  cases ha : a.lookup k <;> simp [h]

/-- The six derived fields of a merged row are exactly the status values,
wherever the input row's own columns sit (clashes are overwritten). -/
lemma derivedOf_pyMerge (a : Row) (st : StatusResult) :
    derivedOf (pyMerge a (statusDict st))
      = (some (.cstr st.support_status), some (.cstr st.eol_date),
         some (isEolCell st.is_eol), some (daysCell st.days_until_eol),
         some (.cbool st.lts), some (.cstr st.latest_version)) := by
  unfold derivedOf
  rw [lookup_pyMerge_hit a (statusDict st) "support_status" (.cstr st.support_status) rfl,
    lookup_pyMerge_hit a (statusDict st) "eol_date" (.cstr st.eol_date) rfl,
    lookup_pyMerge_hit a (statusDict st) "is_eol" (isEolCell st.is_eol) rfl,
    lookup_pyMerge_hit a (statusDict st) "days_until_eol" (daysCell st.days_until_eol) rfl,
    lookup_pyMerge_hit a (statusDict st) "lts" (.cbool st.lts) rfl,
    lookup_pyMerge_hit a (statusDict st) "latest_version" (.cstr st.latest_version) rfl]

/-- The merged row keeps an input cell at every key the status dict does
not bind (in particular `product` and `version`). -/
lemma lookup_pyMerge_item (it : Item) (st : StatusResult) (k : String)
    (h : (statusDict st).lookup k = none) :
    (pyMerge (itemCells it) (statusDict st)).lookup k
      = (it.lookup k).map Cell.cstr := by
  rw [lookup_pyMerge_miss _ _ _ h, itemCells]
  induction it with
  | nil => rfl
  | cons kv t ih =>
    obtain ⟨k₀, v₀⟩ := kv
    simp only [List.map_cons, List.lookup_cons]
    cases hbeq : k == k₀ <;> simp [hbeq, ih]

lemma get_product_info_fst (net : String → Option ApiData) (cache : Cache)
    (p : String) (h : cacheConsistent net cache) :
    (get_product_info net cache p).1 = net p := by
  unfold get_product_info
  cases hc : cache.lookup p with
  | some d => simpa using (h p d hc).symm
  | none => cases hn : net p <;> simp [hn]

lemma get_product_info_consistent (net : String → Option ApiData)
    (cache : Cache) (p : String) (h : cacheConsistent net cache) :
    cacheConsistent net (get_product_info net cache p).2 := by
  unfold get_product_info
  cases hc : cache.lookup p with
  | some d => simpa using h
  | none =>
    cases hn : net p with
    | none => simpa using h
    | some d =>
      intro q e hq
      simp only [List.lookup_cons] at hq
      cases hbeq : q == p with
      | true =>
        rw [hbeq] at hq
        simp only [Option.some.injEq] at hq
        rw [eq_of_beq hbeq, hn, hq]
      | false =>
        rw [hbeq] at hq
        exact h q e hq

/-- With a cache consistent with the network (in particular the empty
cache of a fresh `EOLChecker`), the batch result is the row-wise pure
function of the network: the cache is semantically transparent. -/
lemma check_all_map (net : String → Option ApiData) (nowUs : Int) :
    ∀ (items : List Item) (cache : Cache), cacheConsistent net cache →
      check_all_eol_status net nowUs items cache
        = items.map (fun it => pyMerge (itemCells it) (statusDict (pureStatus net nowUs it))) := by
  intro items
  induction items with
  | nil => intro cache _; rfl
  | cons it rest ih =>
    intro cache h
    simp only [check_all_eol_status, List.map_cons]
    rw [get_product_info_fst net cache _ h,
      ih _ (get_product_info_consistent net cache _ h)]
    rfl

/-- C2: if some record's stringified cycle equals the version exactly,
`find_best_match` returns a record whose cycle equals the version — the
first exact match in list order — even when a record satisfying only the
dot-extension rule appears earlier (the exact-match loop runs first over
the whole list). -/
theorem claim_C2 (L : List CycleRecord) (V : String)
    (h : ∃ r ∈ L, cycleStr r = V) :
    ∃ r, find_best_match (some (.jlist L)) V = some r ∧ cycleStr r = V ∧
      L.find? (fun c => cycleStr c == V) = some r := by
  have hne : L ≠ [] := by
    rintro rfl
    obtain ⟨r, hr, _⟩ := h
    exact absurd hr (List.not_mem_nil r)
  have hisSome : (L.find? (fun c => cycleStr c == V)).isSome := by
    rw [List.find?_isSome]
    obtain ⟨r, hr, he⟩ := h
    exact ⟨r, hr, by simp [he]⟩
  obtain ⟨r, hr⟩ := Option.isSome_iff_exists.mp hisSome
  have hprop : (cycleStr r == V) = true :=
    List.find?_some (p := fun c => cycleStr c == V) hr
  have hemp : L.isEmpty = false := by
    cases L with
    | nil => exact absurd rfl hne
    | cons a t => rfl
  refine ⟨r, ?_, eq_of_beq hprop, hr⟩
  simp [find_best_match, hemp, hr]

/-- Witness for C2: the list `[{cycle:"3.9"}, {cycle:"3.9.1"}]` against
version `"3.9.1"`: the first record already satisfies the dot-extension
rule, yet the exact match `"3.9.1"` further down is returned. -/
theorem claim_C2_witness :
    (∃ r ∈ [(⟨some "3.9", PyVal.pnone, PyVal.pnone, none, none⟩ : CycleRecord),
            ⟨some "3.9.1", PyVal.pnone, PyVal.pnone, none, none⟩],
        cycleStr r = "3.9.1") ∧
    ∃ r, find_best_match
        (some (.jlist [⟨some "3.9", PyVal.pnone, PyVal.pnone, none, none⟩,
                       ⟨some "3.9.1", PyVal.pnone, PyVal.pnone, none, none⟩])) "3.9.1"
        = some r ∧ cycleStr r = "3.9.1" ∧
      List.find? (fun c => cycleStr c == "3.9.1")
        [⟨some "3.9", PyVal.pnone, PyVal.pnone, none, none⟩,
         ⟨some "3.9.1", PyVal.pnone, PyVal.pnone, none, none⟩] = some r := by
  have h : ∃ r ∈ [(⟨some "3.9", PyVal.pnone, PyVal.pnone, none, none⟩ : CycleRecord),
            ⟨some "3.9.1", PyVal.pnone, PyVal.pnone, none, none⟩],
      cycleStr r = "3.9.1" := by decide
  exact ⟨h, claim_C2 _ _ h⟩

/-- C8: with no exact match, `find_best_match` returns the first record
(in original order) matched by the two-sided dot-extension rule, and all
the degenerate payloads — `None`, a non-list document, the empty list —
yield `none`. -/
theorem claim_C8 :
    (∀ V, find_best_match none V = none ∧
      find_best_match (some .jother) V = none ∧
      find_best_match (some (.jlist [])) V = none) ∧
    ∀ (L : List CycleRecord) (V : String), (∀ r ∈ L, cycleStr r ≠ V) →
      find_best_match (some (.jlist L)) V
        = L.find? (fun c => dotRuleHolds V c) := by
  refine ⟨fun V => ⟨rfl, rfl, rfl⟩, ?_⟩
  intro L V h
  cases L with
  | nil => rfl
  | cons a t =>
    have hexact : (a :: t).find? (fun c => cycleStr c == V) = none := by
      rw [List.find?_eq_none]
      intro x hx
      simp [h x hx]
    simp [find_best_match, hexact]

/-- Witness for C8: version `"12"` against the single cycle `"12.4"`,
which is a dot-extension of the version (no exact match exists). -/
theorem claim_C8_witness :
    (∀ r ∈ [(⟨some "12.4", PyVal.pnone, PyVal.pnone, none, none⟩ : CycleRecord)],
        cycleStr r ≠ "12") ∧
    find_best_match
        (some (.jlist [⟨some "12.4", PyVal.pnone, PyVal.pnone, none, none⟩])) "12"
      = List.find? (fun c => dotRuleHolds "12" c)
          [⟨some "12.4", PyVal.pnone, PyVal.pnone, none, none⟩] := by
  have h : ∀ r ∈ [(⟨some "12.4", PyVal.pnone, PyVal.pnone, none, none⟩ : CycleRecord)],
      cycleStr r ≠ "12" := by decide
  exact ⟨h, claim_C8.2 _ _ h⟩

/-- C3: a record with `support` exactly boolean `false` is unconditionally
rewritten to End-of-Support: `is_eol` true, label `"End of Support"`,
`days_until_eol` 0, with `eol_date` as computed by the `eol`-field chain
and `lts`/`latest` passed through — whatever label the `eol` field would
have produced. -/
theorem claim_C3 (r : CycleRecord) (nowUs : Int)
    (h : r.support = PyVal.pbool false) :
    get_eol_status (some r) nowUs =
      { eol_date := (eol_fields r.eol nowUs).2.1, is_eol := .flag true,
        support_status := "End of Support", days_until_eol := some 0,
        lts := r.lts.getD false, latest_version := r.latest.getD "Unknown" } := by
  simp [get_eol_status, h]

/-- Witness for C3: a record with a far-future EOL date but
`support=false` is still forced to End of Support. -/
theorem claim_C3_witness :
    (⟨some "1", PyVal.pstr "2099-01-01", PyVal.pbool false, some true,
        some "1.2"⟩ : CycleRecord).support = PyVal.pbool false ∧
    get_eol_status
        (some ⟨some "1", PyVal.pstr "2099-01-01", PyVal.pbool false, some true,
          some "1.2"⟩) 0 =
      { eol_date := (eol_fields (PyVal.pstr "2099-01-01") 0).2.1,
        is_eol := .flag true, support_status := "End of Support",
        days_until_eol := some 0, lts := true, latest_version := "1.2" } :=
  ⟨rfl, claim_C3 _ 0 rfl⟩

/-- C5: a record with `eol` exactly boolean `true` always yields
`is_eol=true`, `eol_date="EOL"`, `days_until_eol=0`; `support=false`
changes only the label (to `"End of Support"` over `"End of Life"`). -/
theorem claim_C5 (r : CycleRecord) (nowUs : Int)
    (h : r.eol = PyVal.pbool true) :
    (get_eol_status (some r) nowUs).is_eol = .flag true ∧
    (get_eol_status (some r) nowUs).eol_date = "EOL" ∧
    (get_eol_status (some r) nowUs).days_until_eol = some 0 ∧
    (get_eol_status (some r) nowUs).support_status =
      (if r.support = PyVal.pbool false then "End of Support"
       else "End of Life") := by
  by_cases hs : r.support = PyVal.pbool false <;>
    simp [get_eol_status, eol_fields, h, hs]

/-- Witness for C5, at a record whose support field is absent. -/
theorem claim_C5_witness :
    (⟨some "16", PyVal.pbool true, PyVal.pnone, none, none⟩ : CycleRecord).eol
        = PyVal.pbool true ∧
    ((get_eol_status (some ⟨some "16", PyVal.pbool true, PyVal.pnone, none, none⟩) 7).is_eol
        = .flag true ∧
      (get_eol_status (some ⟨some "16", PyVal.pbool true, PyVal.pnone, none, none⟩) 7).eol_date
        = "EOL" ∧
      (get_eol_status (some ⟨some "16", PyVal.pbool true, PyVal.pnone, none, none⟩) 7).days_until_eol
        = some 0 ∧
      (get_eol_status (some ⟨some "16", PyVal.pbool true, PyVal.pnone, none, none⟩) 7).support_status
        = (if (⟨some "16", PyVal.pbool true, PyVal.pnone, none, none⟩ : CycleRecord).support
              = PyVal.pbool false then "End of Support" else "End of Life")) :=
  ⟨rfl, claim_C5 _ 7 rfl⟩

/-- C6: when the support override does not fire, the label placed in the
result is exactly the spec's table applied to the result's own
`is_eol` / `days_until_eol` pair (which are the `eol`-chain values). -/
theorem claim_C6 (r : CycleRecord) (nowUs : Int)
    (h : r.support ≠ PyVal.pbool false) :
    (get_eol_status (some r) nowUs).is_eol = .flag (eol_fields r.eol nowUs).1 ∧
    (get_eol_status (some r) nowUs).days_until_eol = (eol_fields r.eol nowUs).2.2 ∧
    (get_eol_status (some r) nowUs).support_status =
      support_status_spec (eol_fields r.eol nowUs).1 (eol_fields r.eol nowUs).2.2 := by
  refine ⟨by simp [get_eol_status, h], by simp [get_eol_status, h], ?_⟩
  simp only [get_eol_status, if_neg h]
  cases hE : (eol_fields r.eol nowUs).1 with
  | true => simp [support_status_spec, hE]
  | false =>
    cases hD : (eol_fields r.eol nowUs).2.2 with
    | none => simp [support_status_spec, hE, hD]
    | some dd =>
      by_cases h90 : dd < 90
      · simp [support_status_spec, hE, hD, h90]
      · by_cases h180 : dd < 180
        · have h90le : 90 ≤ dd := by omega
          simp [support_status_spec, hE, hD, h90, h180, h90le]
        · have : ¬ (90 ≤ dd ∧ dd < 180) := by omega
          simp [support_status_spec, hE, hD, h90, h180, this]

/-- Witness for C6 at a record whose EOL date is 100 days past `now`
(label `"EOL Approaching (<6 months)"` on both sides of the equality). -/
theorem claim_C6_witness :
    (⟨some "20.04", PyVal.pstr "2025-06-15", PyVal.pnone, none, none⟩
        : CycleRecord).support ≠ PyVal.pbool false ∧
    (get_eol_status
        (some ⟨some "20.04", PyVal.pstr "2025-06-15", PyVal.pnone, none, none⟩)
        ((toOrdinal 2025 3 7 : Int) * usPerDay)).support_status =
      support_status_spec
        (eol_fields (PyVal.pstr "2025-06-15") ((toOrdinal 2025 3 7 : Int) * usPerDay)).1
        (eol_fields (PyVal.pstr "2025-06-15") ((toOrdinal 2025 3 7 : Int) * usPerDay)).2.2 :=
  ⟨by decide,
   (claim_C6 ⟨some "20.04", PyVal.pstr "2025-06-15", PyVal.pnone, none, none⟩
      ((toOrdinal 2025 3 7 : Int) * usPerDay) (by decide)).2.2⟩

/-- C7: an `eol` string that `%Y-%m-%d` rejects leaves the chain at its
defaults — `eol_date` is the raw string, `is_eol` stays `false`,
`days_until_eol` stays `None` — so a malformed date is never itself
treated as EOL, and absent the `support=false` override the row is
labelled `"Actively Supported"`. -/
theorem claim_C7 (r : CycleRecord) (s : String) (nowUs : Int)
    (heol : r.eol = PyVal.pstr s) (hbad : parseDate s = none) :
    eol_fields r.eol nowUs = (false, s, none) ∧
    (get_eol_status (some r) nowUs).eol_date = s ∧
    (r.support ≠ PyVal.pbool false →
      (get_eol_status (some r) nowUs).is_eol = .flag false ∧
      (get_eol_status (some r) nowUs).days_until_eol = none ∧
      (get_eol_status (some r) nowUs).support_status = "Actively Supported") := by
  have hf : eol_fields r.eol nowUs = (false, s, none) := by
    simp [eol_fields, heol, hbad]
  refine ⟨hf, ?_, fun hs => ⟨?_, ?_, ?_⟩⟩
  · by_cases hsup : r.support = PyVal.pbool false <;>
      simp [get_eol_status, hf, hsup]
  · simp [get_eol_status, hf, hs]
  · simp [get_eol_status, hf, hs]
  · simp [get_eol_status, hf, hs]

/-- Witness for C7 at the unparseable string `"TBA"`. -/
theorem claim_C7_witness :
    (⟨some "1.20", PyVal.pstr "TBA", PyVal.pnone, none, none⟩
        : CycleRecord).eol = PyVal.pstr "TBA" ∧
    parseDate "TBA" = none ∧
    (get_eol_status (some ⟨some "1.20", PyVal.pstr "TBA", PyVal.pnone, none, none⟩) 5).eol_date
        = "TBA" ∧
    (get_eol_status (some ⟨some "1.20", PyVal.pstr "TBA", PyVal.pnone, none, none⟩) 5).support_status
        = "Actively Supported" := by
  have h := claim_C7 ⟨some "1.20", PyVal.pstr "TBA", PyVal.pnone, none, none⟩
    "TBA" 5 rfl (by decide)
  exact ⟨rfl, by decide, h.2.1, (h.2.2 (by decide)).2.2⟩

/-- Counterexample to C1 as stated.  The code compares the parsed date's
midnight against the full current *datetime*, not against the current
date, so at one microsecond past midnight of 2020-06-15 a record with
`eol="2020-06-15"` already has `is_eol=true` although the parsed date
equals (is not strictly before) the current date; and for
`eol="2099-01-01"` seen from one microsecond past midnight of 2098-12-31,
`days_until_eol` is `0` although the calendar-day difference from today is
`1` — not the exact calendar-day count the claim asserts. -/
theorem claim_C1_counterexample :
    ((get_eol_status
        (some ⟨some "3.9", PyVal.pstr "2020-06-15", PyVal.pnone, none, none⟩)
        ((toOrdinal 2020 6 15 : Int) * usPerDay + 1)).is_eol = EolFlag.flag true ∧
      ((toOrdinal 2020 6 15 : Int) * usPerDay + 1).fdiv usPerDay
        = (toOrdinal 2020 6 15 : Int)) ∧
    ((get_eol_status
        (some ⟨some "1", PyVal.pstr "2099-01-01", PyVal.pnone, none, none⟩)
        ((toOrdinal 2098 12 31 : Int) * usPerDay + 1)).days_until_eol = some 0 ∧
      ((toOrdinal 2098 12 31 : Int) * usPerDay + 1).fdiv usPerDay
        = (toOrdinal 2098 12 31 : Int) ∧
      toOrdinal 2099 1 1 - toOrdinal 2098 12 31 = 1) := by
  decide

/-- C1 as amended: for a record whose `eol` string parses as `%Y-%m-%d`
(and, the support override aside), `is_eol` is true — with
`days_until_eol = 0` — exactly when the parsed date's *midnight* is
strictly before the current instant; otherwise `is_eol` is false and
`days_until_eol` is the floored number of whole days from the current
instant to that midnight (the calendar-day difference only when the
current instant is itself a midnight). -/
theorem claim_C1_amended (r : CycleRecord) (s : String) (y m d : Nat)
    (nowUs : Int) (heol : r.eol = PyVal.pstr s)
    (hp : parseDate s = some (y, m, d))
    (hsup : r.support ≠ PyVal.pbool false) :
    (get_eol_status (some r) nowUs).eol_date = s ∧
    ((toOrdinal y m d : Int) * usPerDay < nowUs →
      (get_eol_status (some r) nowUs).is_eol = EolFlag.flag true ∧
      (get_eol_status (some r) nowUs).days_until_eol = some 0) ∧
    (¬ (toOrdinal y m d : Int) * usPerDay < nowUs →
      (get_eol_status (some r) nowUs).is_eol = EolFlag.flag false ∧
      (get_eol_status (some r) nowUs).days_until_eol =
        some (((toOrdinal y m d : Int) * usPerDay - nowUs).fdiv usPerDay)) := by
  have hf : eol_fields r.eol nowUs =
      (if (toOrdinal y m d : Int) * usPerDay < nowUs then
        ((true : Bool), s, some (0 : Int))
      else ((false : Bool), s,
        some (((toOrdinal y m d : Int) * usPerDay - nowUs).fdiv usPerDay))) := by
    rw [heol]
    simp only [eol_fields, hp]
  by_cases hlt : (toOrdinal y m d : Int) * usPerDay < nowUs <;>
    simp [get_eol_status, hf, hlt, hsup]

/-- Witness for the amended C1: `eol="2099-01-01"` seen from the exact
midnight of 2025-01-01 gives `is_eol=false` and the floored (here exact)
day difference. -/
theorem claim_C1_witness :
    parseDate "2099-01-01" = some (2099, 1, 1) ∧
    ¬ (toOrdinal 2099 1 1 : Int) * usPerDay
        ≤ (toOrdinal 2025 1 1 : Int) * usPerDay ∧
    ((get_eol_status
        (some ⟨some "1", PyVal.pstr "2099-01-01", PyVal.pnone, none, none⟩)
        ((toOrdinal 2025 1 1 : Int) * usPerDay)).is_eol = EolFlag.flag false ∧
      (get_eol_status
        (some ⟨some "1", PyVal.pstr "2099-01-01", PyVal.pnone, none, none⟩)
        ((toOrdinal 2025 1 1 : Int) * usPerDay)).days_until_eol =
        some (((toOrdinal 2099 1 1 : Int) * usPerDay
          - (toOrdinal 2025 1 1 : Int) * usPerDay).fdiv usPerDay)) := by
  refine ⟨by decide, by decide, ?_⟩
  exact (claim_C1_amended
    ⟨some "1", PyVal.pstr "2099-01-01", PyVal.pnone, none, none⟩
    "2099-01-01" 2099 1 1 ((toOrdinal 2025 1 1 : Int) * usPerDay)
    rfl (by decide) (by decide)).2.2 (by decide)

/-- C4: with no matched record the classifier returns exactly the Unknown
sentinel (every field present, `is_eol` the *string* `"Unknown"`,
`days_until_eol` Python `None`, `lts` false), and the batch produces
exactly one result row per inventory item. -/
theorem claim_C4 :
    (∀ nowUs : Int, get_eol_status none nowUs =
      { eol_date := "Unknown", is_eol := .unknownFlag,
        support_status := "Unknown", days_until_eol := none, lts := false,
        latest_version := "Unknown" }) ∧
    (∀ (net : String → Option ApiData) (nowUs : Int) (items : List Item)
      (cache : Cache),
      (check_all_eol_status net nowUs items cache).length = items.length) := by
  refine ⟨fun _ => rfl, fun net nowUs items => ?_⟩
  induction items with
  | nil => intro cache; rfl
  | cons it rest ih =>
    intro cache
    simp only [check_all_eol_status, List.length_cons, ih]

lemma cacheConsistent_nil (net : String → Option ApiData) :
    cacheConsistent net [] := by
  intro p d h
  simp at h

lemma merge_clean (t : String × String × String × String) (st : StatusResult) :
    pyMerge (itemCells (mkCleanItem t)) (statusDict st)
      = [("product", Cell.cstr t.1), ("version", Cell.cstr t.2.1),
         ("system", Cell.cstr t.2.2.1), ("criticality", Cell.cstr t.2.2.2)]
        ++ statusDict st := rfl

lemma clean_row_keys (t : String × String × String × String)
    (st : StatusResult) :
    ((pyMerge (itemCells (mkCleanItem t)) (statusDict st)).any
      (fun kv => !fieldnames.contains kv.1)) = false := rfl

lemma clean_row_out (t : String × String × String × String)
    (st : StatusResult) :
    fieldnames.map
        (fun f => ((pyMerge (itemCells (mkCleanItem t)) (statusDict st)).lookup f).getD Cell.cnone)
      = [Cell.cstr t.1, Cell.cstr t.2.1, Cell.cstr t.2.2.1, Cell.cstr t.2.2.2,
         Cell.cstr st.support_status, Cell.cstr st.eol_date,
         isEolCell st.is_eol, daysCell st.days_until_eol,
         Cell.cbool st.lts, Cell.cstr st.latest_version] := rfl

lemma save_results_clean (rows : List Row)
    (h : ∀ row ∈ rows, row.any (fun kv => !fieldnames.contains kv.1) = false)
    (hne : rows ≠ []) :
    save_results rows = .saved fieldnames
      (rows.map (fun row => fieldnames.map (fun f => (row.lookup f).getD Cell.cnone))) := by
  have hemp : rows.isEmpty = false := by
    cases rows with
    | nil => exact absurd rfl hne
    | cons a t => rfl
  have hany : (rows.any (fun row => row.any (fun kv => !fieldnames.contains kv.1))) = false := by
    rw [List.any_eq_false]
    intro row hr hcontr
    rw [h row hr] at hcontr
    exact Bool.false_ne_true hcontr
  rw [save_results, hemp, hany]
  rfl

/-- Counterexample to C9 as stated.  An inventory row with an extra
column `notes` is *not* passed through: `save_results` writes the fixed
ten-element `fieldnames` header (which does not include `notes`) and its
`csv.DictWriter` raises `ValueError` on the merged row, so the output is
not the union of input columns with the six derived ones. -/
theorem claim_C9_counterexample :
    save_results (check_all_eol_status (fun _ => none) 0
        [[("product", "python"), ("version", "3.9"), ("system", "srv1"),
          ("criticality", "High"), ("notes", "extra")]] [])
      = SaveOutcome.valueError ∧
    fieldnames.contains "notes" = false := by decide

/-- C9 as amended: for inventories whose rows have exactly the four
documented columns, each output row carries the original four values
unmodified followed by the six derived fields, under the fixed header
`product, version, system, criticality, support_status, eol_date, is_eol,
days_until_eol, lts, latest_version`; rows with extra columns instead
make `csv.DictWriter` raise (see the counterexample). -/
theorem claim_C9_amended (net : String → Option ApiData) (nowUs : Int)
    (inv : List (String × String × String × String)) (hne : inv ≠ []) :
    save_results (check_all_eol_status net nowUs (inv.map mkCleanItem) []) =
      SaveOutcome.saved fieldnames (inv.map (fun t =>
        [Cell.cstr t.1, Cell.cstr t.2.1, Cell.cstr t.2.2.1, Cell.cstr t.2.2.2,
         Cell.cstr (pureStatus net nowUs (mkCleanItem t)).support_status,
         Cell.cstr (pureStatus net nowUs (mkCleanItem t)).eol_date,
         isEolCell (pureStatus net nowUs (mkCleanItem t)).is_eol,
         daysCell (pureStatus net nowUs (mkCleanItem t)).days_until_eol,
         Cell.cbool (pureStatus net nowUs (mkCleanItem t)).lts,
         Cell.cstr (pureStatus net nowUs (mkCleanItem t)).latest_version])) := by
  rw [check_all_map net nowUs _ [] (cacheConsistent_nil net), List.map_map]
  rw [save_results_clean _ ?hkeys ?hne2]
  case hkeys =>
    intro row hr
    obtain ⟨t, _, rfl⟩ := List.mem_map.mp hr
    exact clean_row_keys t _
  case hne2 =>
    intro hmap
    exact hne (List.map_eq_nil_iff.mp hmap)
  rw [List.map_map]
  exact congrArg (SaveOutcome.saved fieldnames)
    (List.map_congr_left (fun t _ => clean_row_out t _))

/-- Witness for the amended C9 on a one-row inventory against a network
that knows nothing (the derived fields are the Unknown sentinel's). -/
theorem claim_C9_witness :
    ([(("python", "3.9", "srv1", "High") : String × String × String × String)] ≠ []) ∧
    save_results (check_all_eol_status (fun _ => none) 0
        ([("python", "3.9", "srv1", "High")].map mkCleanItem) []) =
      SaveOutcome.saved fieldnames ([(("python", "3.9", "srv1", "High") : String × String × String × String)].map (fun t =>
        [Cell.cstr t.1, Cell.cstr t.2.1, Cell.cstr t.2.2.1, Cell.cstr t.2.2.2,
         Cell.cstr (pureStatus (fun _ => none) 0 (mkCleanItem t)).support_status,
         Cell.cstr (pureStatus (fun _ => none) 0 (mkCleanItem t)).eol_date,
         isEolCell (pureStatus (fun _ => none) 0 (mkCleanItem t)).is_eol,
         daysCell (pureStatus (fun _ => none) 0 (mkCleanItem t)).days_until_eol,
         Cell.cbool (pureStatus (fun _ => none) 0 (mkCleanItem t)).lts,
         Cell.cstr (pureStatus (fun _ => none) 0 (mkCleanItem t)).latest_version])) := by
  have hne : ([(("python", "3.9", "srv1", "High") : String × String × String × String)] ≠ []) := by
    decide
  exact ⟨hne, claim_C9_amended (fun _ => none) 0 _ hne⟩

/-- C10: the status lookup uses the lowercased, stripped product and the
stripped version, so two rows whose product differs only in ASCII case or
surrounding whitespace and whose version differs only in surrounding
whitespace receive identical derived status fields, while each output row
keeps its own original, un-normalized product and version strings. -/
theorem claim_C10 (net : String → Option ApiData) (nowUs : Int)
    (items : List Item) (i j : Nat) (iti itj : Item)
    (hi : items[i]? = some iti) (hj : items[j]? = some itj)
    (hp : pyStrip (pyLower (pyGetStr iti "product"))
        = pyStrip (pyLower (pyGetStr itj "product")))
    (hv : pyStrip (pyGetStr iti "version") = pyStrip (pyGetStr itj "version")) :
    ∃ rowi rowj,
      (check_all_eol_status net nowUs items [])[i]? = some rowi ∧
      (check_all_eol_status net nowUs items [])[j]? = some rowj ∧
      derivedOf rowi = derivedOf rowj ∧
      rowi.lookup "product" = (iti.lookup "product").map Cell.cstr ∧
      rowi.lookup "version" = (iti.lookup "version").map Cell.cstr ∧
      rowj.lookup "product" = (itj.lookup "product").map Cell.cstr ∧
      rowj.lookup "version" = (itj.lookup "version").map Cell.cstr := by
  have hmap := check_all_map net nowUs items [] (cacheConsistent_nil net)
  have hsts : pureStatus net nowUs iti = pureStatus net nowUs itj := by
    unfold pureStatus
    rw [hp, hv]
  refine ⟨pyMerge (itemCells iti) (statusDict (pureStatus net nowUs iti)),
          pyMerge (itemCells itj) (statusDict (pureStatus net nowUs itj)),
          ?_, ?_, ?_, ?_, ?_, ?_, ?_⟩
  · rw [hmap, List.getElem?_map, hi]; rfl
  · rw [hmap, List.getElem?_map, hj]; rfl
  · rw [derivedOf_pyMerge, derivedOf_pyMerge, hsts]
  · exact lookup_pyMerge_item iti _ "product" rfl
  · exact lookup_pyMerge_item iti _ "version" rfl
  · exact lookup_pyMerge_item itj _ "product" rfl
  · exact lookup_pyMerge_item itj _ "version" rfl

/-- Witness for C10: rows `("PYTHON ", "3.9")` and `(" python", "3.9 ")`
normalize identically, so their derived fields coincide while each output
row keeps its own raw strings. -/
theorem claim_C10_witness :
    pyStrip (pyLower (pyGetStr [("product", "PYTHON "), ("version", "3.9")] "product"))
      = pyStrip (pyLower (pyGetStr [("product", " python"), ("version", "3.9 ")] "product")) ∧
    pyStrip (pyGetStr [("product", "PYTHON "), ("version", "3.9")] "version")
      = pyStrip (pyGetStr [("product", " python"), ("version", "3.9 ")] "version") ∧
    ∃ rowi rowj,
      (check_all_eol_status (fun _ => none) 0
          [[("product", "PYTHON "), ("version", "3.9")],
           [("product", " python"), ("version", "3.9 ")]] [])[0]? = some rowi ∧
      (check_all_eol_status (fun _ => none) 0
          [[("product", "PYTHON "), ("version", "3.9")],
           [("product", " python"), ("version", "3.9 ")]] [])[1]? = some rowj ∧
      derivedOf rowi = derivedOf rowj ∧
      rowi.lookup "product"
        = (([("product", "PYTHON "), ("version", "3.9")] : Item).lookup "product").map Cell.cstr ∧
      rowi.lookup "version"
        = (([("product", "PYTHON "), ("version", "3.9")] : Item).lookup "version").map Cell.cstr ∧
      rowj.lookup "product"
        = (([("product", " python"), ("version", "3.9 ")] : Item).lookup "product").map Cell.cstr ∧
      rowj.lookup "version"
        = (([("product", " python"), ("version", "3.9 ")] : Item).lookup "version").map Cell.cstr := by
  refine ⟨by decide, by decide, ?_⟩
  exact claim_C10 (fun _ => none) 0
    [[("product", "PYTHON "), ("version", "3.9")],
     [("product", " python"), ("version", "3.9 ")]] 0 1
    [("product", "PYTHON "), ("version", "3.9")]
    [("product", " python"), ("version", "3.9 ")]
    rfl rfl (by decide) (by decide)
